import Mathlib

/-!
Shallow embedding of the data-preparation pipeline of `src/fema_app.py`.

The script loads a CSV, coerces the `repairAmount` column to numeric with
per-cell failures becoming missing values (`pd.to_numeric(..., errors="coerce")`,
line 39), checks that the file exists (line 45) and that the required columns
`repairAmount` and `tsaEligible` are present (lines 57-64), drops rows where
either field is missing (line 67), caps outliers at the 0.99 quantile of
`repairAmount` (lines 70-71), and further restricts the plotting view by a
slider-supplied maximum (line 108).

Numeric values are modelled by `ℚ` (the script's floats carry exact decimal
data in this pipeline; every property at stake is an order/interpolation
property). A raw CSV cell is `Option String` (`none` is an empty/missing
cell); a raw table is a header list plus rows of cells.
-/

/-- A record of the prepared dataset: the two pipeline-relevant fields of a
row. `repairAmount` is the numerically coerced value (`none` = missing/NaN
after coercion); `tsaEligible` is the raw cell (`none` = missing). -/
structure Record where
  repairAmount : Option ℚ
  tsaEligible : Option String
deriving DecidableEq

/-- A raw tabular file: a header (column names) and rows of cells aligned
positionally with the header, as produced by reading a delimited file. -/
structure RawTable where
  cols : List String
  rows : List (List (Option String))
deriving DecidableEq

/-- Cell of a row under a column name: position of the name in the header,
`none` when the column is absent or the row is short. -/
def RawTable.cell (t : RawTable) (row : List (Option String)) (c : String) :
    Option String :=
  match t.cols.findIdx? (· == c) with
  | some i => row.getD i none
  | none => none

/-- Digits of a decimal literal to a natural number; `none` when any
character is not a digit. -/
def digitsToNat (cs : List Char) : Option ℕ :=
  cs.foldl
    (fun acc c =>
      acc.bind fun n => if c.isDigit then some (n * 10 + (c.toNat - 48)) else none)
    (some 0)

/-- Unsigned decimal literal (integer part, optional fractional part). -/
def parseUnsigned (cs : List Char) : Option ℚ :=
  match cs.splitOn '.' with
  | [ip] =>
    if ip.isEmpty then none
    else (digitsToNat ip).map (fun n => (n : ℚ))
  | [ip, fp] =>
    if ip.isEmpty && fp.isEmpty then none
    else
      match digitsToNat ip, digitsToNat fp with
      | some i, some f => some ((i : ℚ) + (f : ℚ) / (10 : ℚ) ^ fp.length)
      | _, _ => none
  | _ => none

/-- Numeric parse of one cell's text, modelling `pd.to_numeric` on a single
value restricted to plain decimal literals: a parse failure is `none`, never
an error (`errors="coerce"`, `src/fema_app.py` line 39). -/
def parseNumeric (s : String) : Option ℚ :=
  match s.toList with
  | [] => none
  | '-' :: rest => (parseUnsigned rest).map (fun v => -v)
  | cs => parseUnsigned cs

/-- Errors of the loading stage: the script halts with an error message when
the file is absent (lines 45-51) or when a required column is missing
(lines 57-64), carrying the missing column names. -/
inductive LoadError where
  | notFound : LoadError
  | schema : List String → LoadError
deriving DecidableEq

/-- The required columns, `src/fema_app.py` line 57. -/
def requiredCols : List String := ["repairAmount", "tsaEligible"]

/-- Projection of a raw row to the prepared record: `repairAmount` is
numerically coerced per cell (failures become `none`), `tsaEligible` is
taken as-is. -/
def toRecord (t : RawTable) (row : List (Option String)) : Record :=
  { repairAmount := (t.cell row "repairAmount").bind parseNumeric
    tsaEligible := t.cell row "tsaEligible" }

/-- Loading stage of `src/fema_app.py` (lines 44-64): check the path exists
in the file system (modelled as a partial map from paths to raw tables),
read all rows with per-cell numeric coercion of `repairAmount`, then check
the required columns are present, naming the missing ones on failure. -/
def loadDataset (fs : String → Option RawTable) (path : String) :
    Except LoadError (List Record) :=
  match fs path with
  | none => Except.error LoadError.notFound
  | some t =>
    let missing := requiredCols.filter (fun c => decide (c ∉ t.cols))
    if missing = [] then
      Except.ok (t.rows.map (toRecord t))
    else
      Except.error (LoadError.schema missing)

/-- Cleaning stage, `src/fema_app.py` line 67:
`df[df["repairAmount"].notna() & df["tsaEligible"].notna()]`. -/
def cleanDataset (ds : List Record) : List Record :=
  ds.filter (fun r => r.repairAmount.isSome && r.tsaEligible.isSome)

/-- Quantile with linear interpolation between ranks, the default
interpolation of `pandas.Series.quantile` used at `src/fema_app.py` line 70:
sort the values, set h = (n-1)·q, and interpolate between the values at
ranks ⌊h⌋ and ⌊h⌋+1. An empty series yields `none` (pandas returns NaN). -/
def quantileLinear (xs : List ℚ) (q : ℚ) : Option ℚ :=
  if xs = [] then none
  else
    let s := xs.insertionSort (· ≤ ·)
    let n := s.length
    let h : ℚ := ((n : ℚ) - 1) * q
    let j : ℕ := (Int.floor h).toNat
    let lo := s.getD j 0
    let hi := s.getD (min (j + 1) (n - 1)) 0
    some (lo + (h - (j : ℚ)) * (hi - lo))

/-- Pandas comparison `x <= bound` on one cell: false when either side is
missing/NaN (a NaN never satisfies `<=` in pandas). -/
def leCap (bound : Option ℚ) (x : Option ℚ) : Bool :=
  match bound, x with
  | some c, some v => decide (v ≤ c)
  | _, _ => false

/-- Capping stage, `src/fema_app.py` lines 70-71: the cap is the `q`-quantile
of the `repairAmount` column over the (cleaned) dataset, and the plotting
view keeps the records whose `repairAmount` compares ≤ cap (a NaN cap or a
missing value compares false, as in pandas). Returns (PlotView, capValue). -/
def capOutliers (ds : List Record) (q : ℚ) : List Record × Option ℚ :=
  let cap := quantileLinear (ds.filterMap Record.repairAmount) q
  (ds.filter (fun r => leCap cap r.repairAmount), cap)

/-- Slider-bounded restriction, `src/fema_app.py` line 108:
`df_plot[df_plot["repairAmount"] <= max_amount]`. -/
def filterByMax (view : List Record) (m : ℚ) : List Record :=
  view.filter (fun r => leCap (some m) r.repairAmount)

/-- Modelled from the spec: the claimed clamping variant of `filterByMax` in
which a bound outside [min(column), capValue] is first clamped into that
range ("the pipeline clamps rather than erroring"). Not present in the
source; used to compare the claim with the code. -/
def filterByMaxClamped (view : List Record) (minC cap m : ℚ) : List Record :=
  filterByMax view (max minC (min m cap))

/-- The spec's worked example rows: amounts "1000", "bad", "3000"; the third
row has a missing `tsaEligible` cell. -/
def exTable : RawTable :=
  { cols := ["repairAmount", "tsaEligible"]
    rows := [[some "1000", some "1"], [some "bad", some "0"], [some "3000", none]] }

/-- A table missing the required `tsaEligible` column. -/
def exBadTable : RawTable :=
  { cols := ["repairAmount"], rows := [[some "1000"]] }

/-- A small file system holding the two example tables. -/
def exFS : String → Option RawTable := fun p =>
  if p = "fema_small.csv" then some exTable
  else if p = "bad.csv" then some exBadTable
  else none

/-- The records obtained by loading `exTable`. -/
def exRecords : List Record :=
  [⟨some 1000, some "1"⟩, ⟨none, some "0"⟩, ⟨some 3000, none⟩]

/-- A cleaned five-row dataset realizing the spec's quantile example
values [100, 200, 300, 400, 100000]. -/
def exCleaned5 : List Record :=
  [⟨some 100, some "1"⟩, ⟨some 200, some "1"⟩, ⟨some 300, some "0"⟩,
   ⟨some 400, some "0"⟩, ⟨some 100000, some "1"⟩]

/-- The plotting view of `exCleaned5` at quantile 0.99. -/
def exPlot4 : List Record :=
  [⟨some 100, some "1"⟩, ⟨some 200, some "1"⟩, ⟨some 300, some "0"⟩,
   ⟨some 400, some "0"⟩]

/-- A two-row cleaned dataset whose 0.99 cap is 199. -/
def exView2 : List Record := [⟨some 100, some "1"⟩, ⟨some 200, some "0"⟩]

/-! Helper lemmas shared by the claim theorems. -/

theorem leCap_some_iff (c : ℚ) (x : Option ℚ) :
    leCap (some c) x = true ↔ ∃ v, x = some v ∧ v ≤ c := by
  cases x <;> simp [leCap]

theorem capOutliers_snd (ds : List Record) (q : ℚ) :
    (capOutliers ds q).2 = quantileLinear (ds.filterMap Record.repairAmount) q := rfl

theorem capOutliers_fst (ds : List Record) (q : ℚ) :
    (capOutliers ds q).1 =
      ds.filter (fun r =>
        leCap (quantileLinear (ds.filterMap Record.repairAmount) q) r.repairAmount) := rfl

theorem quantileLinear_isSome (xs : List ℚ) (q : ℚ) (h : xs ≠ []) :
    ∃ c, quantileLinear xs q = some c := by
  rw [quantileLinear, if_neg h]
  exact ⟨_, rfl⟩

theorem quantileLinear_five :
    quantileLinear [100, 200, 300, 400, 100000] (99/100) = some 96016 := by
  rw [quantileLinear, if_neg (show ¬([100, 200, 300, 400, 100000] : List ℚ) = [] by simp)]
  norm_num [List.insertionSort, List.orderedInsert, show Int.toNat 3 = 3 from rfl,
    List.getElem_cons_succ, List.getElem_cons_zero]

theorem quantileLinear_two :
    quantileLinear [100, 200] (99/100) = some 199 := by
  rw [quantileLinear, if_neg (show ¬([100, 200] : List ℚ) = [] by simp)]
  norm_num [List.insertionSort, List.orderedInsert, show Int.toNat 0 = 0 from rfl,
    List.getElem_cons_succ, List.getElem_cons_zero]

theorem capOutliers_exCleaned5 :
    capOutliers exCleaned5 (99/100) = (exPlot4, some 96016) := by
  have hfm : exCleaned5.filterMap Record.repairAmount = [100, 200, 300, 400, 100000] := rfl
  simp only [capOutliers, hfm, quantileLinear_five]
  decide

theorem capOutliers_exView2 :
    capOutliers exView2 (99/100) = ([⟨some 100, some "1"⟩], some 199) := by
  have hfm : exView2.filterMap Record.repairAmount = [100, 200] := rfl
  simp only [capOutliers, hfm, quantileLinear_two]
  decide

/-- C1: for every dataset D, `cleanDataset D` retains exactly the records
with non-missing `repairAmount` and non-missing `tsaEligible` (a record with
either field missing is removed), and the retained records keep their
relative order from D (the result is a sublist of D: stable filter). -/
theorem cleanDataset_exact_and_stable (D : List Record) :
    (∀ r ∈ cleanDataset D, r.repairAmount.isSome ∧ r.tsaEligible.isSome) ∧
    (∀ r ∈ D, r.repairAmount.isSome → r.tsaEligible.isSome → r ∈ cleanDataset D) ∧
    (cleanDataset D).Sublist D := by
  refine ⟨?_, ?_, List.filter_sublist D⟩
  · intro r hr
    have h := (List.mem_filter.mp hr).2
    exact ⟨(Bool.and_eq_true _ _ |>.mp h).1, (Bool.and_eq_true _ _ |>.mp h).2⟩
  · intro r hr h1 h2
    exact List.mem_filter.mpr ⟨hr, by simp [h1, h2]⟩

/-- C6: `cleanDataset` is idempotent. -/
theorem cleanDataset_idempotent (D : List Record) :
    cleanDataset (cleanDataset D) = cleanDataset D := by
  apply List.filter_eq_self.mpr
  intro r hr
  exact (List.mem_filter.mp hr).2

/-- C2: on a cleaned dataset with at least one row, `capOutliers` at 0.99
returns a cap value that bounds every `repairAmount` in the resulting
PlotView from above, and the PlotView holds exactly the records whose
`repairAmount` is ≤ the cap (the cleaned dataset itself is untouched: the
PlotView is a separate derived list). -/
theorem capOutliers_cap_bounds (D : List Record) (hne : D ≠ [])
    (hclean : ∀ r ∈ D, r.repairAmount.isSome) :
    ∃ c, (capOutliers D (99/100)).2 = some c ∧
      (∀ r ∈ (capOutliers D (99/100)).1, ∀ v, r.repairAmount = some v → v ≤ c) ∧
      (∀ r ∈ D, (r ∈ (capOutliers D (99/100)).1 ↔ ∃ v, r.repairAmount = some v ∧ v ≤ c)) := by
  have hvals : D.filterMap Record.repairAmount ≠ [] := by
    obtain ⟨r, hr⟩ := List.exists_mem_of_ne_nil D hne
    obtain ⟨v, hv⟩ := Option.isSome_iff_exists.mp (hclean r hr)
    exact List.ne_nil_of_mem (List.mem_filterMap.mpr ⟨r, hr, hv⟩)
  obtain ⟨c, hc⟩ := quantileLinear_isSome _ (99/100) hvals
  refine ⟨c, by rw [capOutliers_snd, hc], ?_, ?_⟩
  · intro r hr v hv
    rw [capOutliers_fst, hc] at hr
    have hp := (List.mem_filter.mp hr).2
    obtain ⟨v', hv', hle⟩ := (leCap_some_iff _ _).mp hp
    rw [hv] at hv'
    injection hv' with hv'
    rw [hv']
    exact hle
  · intro r hrD
    rw [capOutliers_fst, hc]
    constructor
    · intro hr
      exact (leCap_some_iff _ _).mp (List.mem_filter.mp hr).2
    · rintro ⟨v, hv, hle⟩
      exact List.mem_filter.mpr ⟨hrD, (leCap_some_iff _ _).mpr ⟨v, hv, hle⟩⟩

/-- C2 witness: the bound property instantiated on the concrete cleaned
five-row dataset of the spec's example. -/
theorem capOutliers_cap_bounds_witness :
    ∃ c, (capOutliers exCleaned5 (99/100)).2 = some c ∧
      (∀ r ∈ (capOutliers exCleaned5 (99/100)).1, ∀ v, r.repairAmount = some v → v ≤ c) ∧
      (∀ r ∈ exCleaned5,
        (r ∈ (capOutliers exCleaned5 (99/100)).1 ↔ ∃ v, r.repairAmount = some v ∧ v ≤ c)) :=
  capOutliers_cap_bounds exCleaned5 (by simp [exCleaned5]) (by decide)

/-- C7: `filterByMax` is monotone in the bound: raising the bound never
removes a record from the restricted PlotView. -/
theorem filterByMax_monotone (view : List Record) (m₁ m₂ : ℚ) (h : m₁ ≤ m₂) :
    ∀ r ∈ filterByMax view m₁, r ∈ filterByMax view m₂ := by
  intro r hr
  rw [filterByMax, List.mem_filter] at hr ⊢
  obtain ⟨v, hv, hle⟩ := (leCap_some_iff _ _).mp hr.2
  exact ⟨hr.1, (leCap_some_iff _ _).mpr ⟨v, hv, le_trans hle h⟩⟩

/-- C7 witness: a record kept at bound 100 is still kept at bound 150. -/
theorem filterByMax_monotone_witness :
    (⟨some 100, some "1"⟩ : Record) ∈ filterByMax exView2 150 :=
  filterByMax_monotone exView2 100 150 (by norm_num) _ (by decide)

/-- C9: quantile computation on fewer than two rows is deterministic: on a
one-row dataset the cap is the single `repairAmount` present (for any
quantile), and on a zero-row dataset the cap is the missing value `none`
rather than an error. -/
theorem capOutliers_degenerate (r : Record) (v q : ℚ) (h : r.repairAmount = some v) :
    capOutliers [r] q = ([r], some v) ∧
    ∀ q', capOutliers ([] : List Record) q' = ([], none) := by
  constructor
  · have hfm : ([r] : List Record).filterMap Record.repairAmount = [v] := by
      simp [List.filterMap_cons, h]
    have hq : quantileLinear [v] q = some v := by
      rw [quantileLinear, if_neg (by simp)]
      simp [List.insertionSort, List.orderedInsert]
    simp only [capOutliers, hfm, hq]
    simp [List.filter, leCap, h]
  · intro q'
    simp [capOutliers, quantileLinear]

/-- C9 witness: the degenerate cases at the concrete record with amount 5. -/
theorem capOutliers_degenerate_witness :
    capOutliers [(⟨some 5, some "1"⟩ : Record)] (99/100) = ([⟨some 5, some "1"⟩], some 5) ∧
    ∀ q', capOutliers ([] : List Record) q' = ([], none) :=
  capOutliers_degenerate ⟨some 5, some "1"⟩ 5 (99/100) rfl

/-- C3: loading fails with the not-found error when the path does not
resolve, and fails with a schema error naming exactly the missing required
columns when a required column is absent from the loaded table; in both
failure cases the result is an error and never an `ok` dataset, so
processing halts with no dataset produced. -/
theorem loadDataset_error_cases (fs : String → Option RawTable) (path : String) :
    (fs path = none → loadDataset fs path = Except.error LoadError.notFound) ∧
    (∀ t, fs path = some t → ∀ c ∈ requiredCols, c ∉ t.cols →
      ∃ ms, loadDataset fs path = Except.error (LoadError.schema ms) ∧ c ∈ ms ∧
        (∀ c', c' ∈ ms ↔ c' ∈ requiredCols ∧ c' ∉ t.cols)) ∧
    (∀ e, loadDataset fs path = Except.error e → ∀ ds, loadDataset fs path ≠ Except.ok ds) := by
  refine ⟨?_, ?_, ?_⟩
  · intro h
    rw [loadDataset, h]
  · intro t hft c hcr hcn
    have hmem : c ∈ requiredCols.filter (fun c => decide (c ∉ t.cols)) :=
      List.mem_filter.mpr ⟨hcr, by simpa using hcn⟩
    refine ⟨requiredCols.filter (fun c => decide (c ∉ t.cols)), ?_, hmem, ?_⟩
    · rw [loadDataset, hft]
      simp only [if_neg (List.ne_nil_of_mem hmem)]
    · intro c'
      simp [List.mem_filter]
  · intro e he ds hok
    rw [he] at hok
    exact Except.noConfusion hok

/-- C3 witness: on the concrete file system, a missing path gives the
not-found error, and the table lacking `tsaEligible` gives a schema error
naming that column. -/
theorem loadDataset_error_cases_witness :
    loadDataset exFS "missing.csv" = Except.error LoadError.notFound ∧
    ∃ ms, loadDataset exFS "bad.csv" = Except.error (LoadError.schema ms) ∧
      "tsaEligible" ∈ ms ∧ (∀ c', c' ∈ ms ↔ c' ∈ requiredCols ∧ c' ∉ exBadTable.cols) :=
  ⟨(loadDataset_error_cases exFS "missing.csv").1 (by decide),
   (loadDataset_error_cases exFS "bad.csv").2.1 exBadTable (by decide) "tsaEligible"
     (by decide) (by decide)⟩

/-- C4: when the path resolves and the schema check passes, loading
succeeds with every row kept, each record's `repairAmount` is the per-cell
numeric parse of the raw cell, and a cell whose parse fails becomes the
missing marker `none` instead of an error. -/
theorem loadDataset_coerces (fs : String → Option RawTable) (path : String)
    (t : RawTable) (hft : fs path = some t)
    (hcols : ∀ c ∈ requiredCols, c ∈ t.cols) :
    loadDataset fs path = Except.ok (t.rows.map (toRecord t)) ∧
    ∀ row ∈ t.rows,
      (toRecord t row).repairAmount = (t.cell row "repairAmount").bind parseNumeric ∧
      ∀ s, t.cell row "repairAmount" = some s → parseNumeric s = none →
        (toRecord t row).repairAmount = none := by
  have hnil : requiredCols.filter (fun c => decide (c ∉ t.cols)) = [] := by
    rw [List.filter_eq_nil_iff]
    intro c hc
    simp [hcols c hc]
  constructor
  · rw [loadDataset, hft]
    simp [hnil]
    exact hcols
  · intro row hrow
    refine ⟨rfl, ?_⟩
    intro s hs hps
    simp [toRecord, hs, hps]

/-- C4 witness: the example table (whose second row holds the unparsable
amount "bad") loads successfully with the coercion applied per cell. -/
theorem loadDataset_coerces_witness :
    loadDataset exFS "fema_small.csv" = Except.ok (exTable.rows.map (toRecord exTable)) ∧
    ∀ row ∈ exTable.rows,
      (toRecord exTable row).repairAmount =
        (exTable.cell row "repairAmount").bind parseNumeric ∧
      ∀ s, exTable.cell row "repairAmount" = some s → parseNumeric s = none →
        (toRecord exTable row).repairAmount = none :=
  loadDataset_coerces exFS "fema_small.csv" exTable (by decide) (by decide)

/-- C5: the quantile is linear interpolation between ranks: on an already
sorted non-empty list the result interpolates between the values at ranks
⌊(n-1)q⌋ and ⌊(n-1)q⌋+1; concretely, for the cleaned values
[100, 200, 300, 400, 100000] the 0.99 cap is 96016, which equals the
standard formula value 400 + ((5-1)·0.99 - 3)·(100000 - 400), exceeds 400,
and excludes exactly the record 100000 from the PlotView. -/
theorem quantileLinear_interpolation :
    (∀ s : List ℚ, s.Sorted (· ≤ ·) → s ≠ [] → ∀ q : ℚ,
      quantileLinear s q =
        some (s.getD ((Int.floor (((s.length : ℚ) - 1) * q)).toNat) 0 +
          ((((s.length : ℚ) - 1) * q) - (((Int.floor (((s.length : ℚ) - 1) * q)).toNat : ℚ))) *
            (s.getD (min ((Int.floor (((s.length : ℚ) - 1) * q)).toNat + 1) (s.length - 1)) 0 -
              s.getD ((Int.floor (((s.length : ℚ) - 1) * q)).toNat) 0))) ∧
    (capOutliers exCleaned5 (99/100)).2 = some 96016 ∧
    (96016 : ℚ) = 400 + ((4 : ℚ) * (99/100) - 3) * (100000 - 400) ∧
    (400 : ℚ) < 96016 ∧
    (capOutliers exCleaned5 (99/100)).1 = exPlot4 := by
  refine ⟨?_, ?_, by norm_num, by norm_num, ?_⟩
  · intro s hs hne q
    rw [quantileLinear, if_neg hne, hs.insertionSort_eq]
  · rw [capOutliers_exCleaned5]
  · rw [capOutliers_exCleaned5]

/-- C8 counterexample: the claim that an out-of-range bound is clamped into
[min(column), capValue] fails below the minimum. For the PlotView of
`exView2` (its single record has amount 100; the cap is 199), the bound 50
lies below the contract range; the code returns the empty view, whereas
clamping 50 up to 100 would retain the record with amount 100 — the two
results differ, so no lower clamping occurs (no error is raised either). -/
theorem filterByMax_no_lower_clamp :
    (capOutliers exView2 (99/100)).1 = [⟨some 100, some "1"⟩] ∧
    (capOutliers exView2 (99/100)).2 = some 199 ∧
    filterByMax (capOutliers exView2 (99/100)).1 50 = [] ∧
    filterByMaxClamped (capOutliers exView2 (99/100)).1 100 199 50 = [⟨some 100, some "1"⟩] ∧
    filterByMax (capOutliers exView2 (99/100)).1 50 ≠
      filterByMaxClamped (capOutliers exView2 (99/100)).1 100 199 50 := by
  rw [capOutliers_exView2]
  refine ⟨rfl, rfl, ?_, ?_, ?_⟩ <;> decide

/-- C8 amended: `filterByMax` is a total function (no error for any bound);
for a bound at or above the cap of the PlotView it returns the full
PlotView, which coincides with clamping the bound into the valid range at
the cap; for a bound below the column minimum no clamping occurs and the
result is simply the records with value ≤ bound (possibly empty). -/
theorem filterByMax_above_cap_clamps (ds : List Record) (q m : ℚ)
    (view : List Record) (c : ℚ)
    (h : capOutliers ds q = (view, some c)) (hm : c ≤ m) :
    filterByMax view m = view ∧
    ∀ mn, mn ≤ c → filterByMaxClamped view mn c m = view := by
  have hview : ∀ r ∈ view, ∃ v, r.repairAmount = some v ∧ v ≤ c := by
    intro r hr
    have h1 : view = (capOutliers ds q).1 := by rw [h]
    have h2 : (capOutliers ds q).2 = some c := by rw [h]
    rw [capOutliers_snd] at h2
    rw [h1, capOutliers_fst, h2] at hr
    exact (leCap_some_iff _ _).mp (List.mem_filter.mp hr).2
  constructor
  · apply List.filter_eq_self.mpr
    intro r hr
    obtain ⟨v, hv, hvc⟩ := hview r hr
    exact (leCap_some_iff _ _).mpr ⟨v, hv, le_trans hvc hm⟩
  · intro mn hmn
    have hb : max mn (min m c) = c := by
      rw [min_eq_right hm, max_eq_right hmn]
    rw [filterByMaxClamped, hb]
    apply List.filter_eq_self.mpr
    intro r hr
    obtain ⟨v, hv, hvc⟩ := hview r hr
    exact (leCap_some_iff _ _).mpr ⟨v, hv, hvc⟩

/-- C8 amended witness: the five-row example PlotView with an above-cap
bound 100000 is returned whole. -/
theorem filterByMax_above_cap_clamps_witness :
    filterByMax exPlot4 100000 = exPlot4 :=
  (filterByMax_above_cap_clamps exCleaned5 (99/100) 100000 exPlot4 96016
    capOutliers_exCleaned5 (by norm_num)).1

theorem quantileLinear_ge_min (xs : List ℚ) (q : ℚ) (hne : xs ≠ [])
    (hq0 : 0 ≤ q) (hq1 : q ≤ 1) :
    ∃ c, quantileLinear xs q = some c ∧
      ∃ v ∈ xs, (∀ w ∈ xs, v ≤ w) ∧ v ≤ c := by
  have hsort : (xs.insertionSort (· ≤ ·)).Sorted (· ≤ ·) :=
    List.sorted_insertionSort _ xs
  have hperm : (xs.insertionSort (· ≤ ·)).Perm xs := List.perm_insertionSort _ xs
  set s := xs.insertionSort (· ≤ ·) with hs_def
  have hsne : s ≠ [] := by
    intro h0
    rw [h0] at hperm
    exact hne hperm.symm.eq_nil
  have hn1 : 1 ≤ s.length := List.length_pos.mpr hsne
  have hn1q : (0:ℚ) ≤ (s.length : ℚ) - 1 := by
    have : (1:ℚ) ≤ (s.length : ℚ) := by exact_mod_cast hn1
    linarith
  have h0 : 0 ≤ ((s.length : ℚ) - 1) * q := mul_nonneg hn1q hq0
  have hle : ((s.length : ℚ) - 1) * q ≤ (s.length : ℚ) - 1 := by
    have := mul_le_mul_of_nonneg_left hq1 hn1q
    simpa using this
  have hfl0 : (0:ℤ) ≤ Int.floor (((s.length : ℚ) - 1) * q) := Int.floor_nonneg.mpr h0
  set j := (Int.floor (((s.length : ℚ) - 1) * q)).toNat with hj_def
  have hjz : ((j : ℤ) : ℚ) ≤ ((s.length : ℚ) - 1) * q := by
    rw [hj_def, Int.toNat_of_nonneg hfl0]
    exact Int.floor_le _
  have hjq : (j : ℚ) ≤ ((s.length : ℚ) - 1) * q := by exact_mod_cast hjz
  have hjn : j < s.length := by
    have h1 : Int.floor (((s.length : ℚ) - 1) * q) ≤ Int.floor ((s.length : ℚ) - 1) :=
      Int.floor_le_floor hle
    have h2 : Int.floor ((s.length : ℚ) - 1) = (s.length : ℤ) - 1 := by
      rw [show ((s.length : ℚ) - 1) = (((s.length : ℤ) - 1 : ℤ) : ℚ) by push_cast; ring]
      exact Int.floor_intCast _
    have h4 : (j : ℤ) ≤ (s.length : ℤ) - 1 := by
      rw [hj_def, Int.toNat_of_nonneg hfl0]
      omega
    omega
  have hkn : min (j + 1) (s.length - 1) < s.length := by omega
  have hjk : j ≤ min (j + 1) (s.length - 1) := by omega
  have hget_lo : s.getD j 0 = s.get ⟨j, hjn⟩ := by
    rw [List.getD_eq_getElem s 0 hjn, List.get_eq_getElem]
  have hget_hi : s.getD (min (j + 1) (s.length - 1)) 0 = s.get ⟨_, hkn⟩ := by
    rw [List.getD_eq_getElem s 0 hkn, List.get_eq_getElem]
  have hlohi : s.get ⟨j, hjn⟩ ≤ s.get ⟨_, hkn⟩ :=
    hsort.rel_get_of_le (by exact hjk)
  have h0n : 0 < s.length := hn1
  have hminlo : s.get ⟨0, h0n⟩ ≤ s.get ⟨j, hjn⟩ :=
    hsort.rel_get_of_le (by exact Nat.zero_le _)
  refine ⟨s.getD j 0 + ((((s.length : ℚ) - 1) * q) - (j : ℚ)) *
      (s.getD (min (j + 1) (s.length - 1)) 0 - s.getD j 0), ?_, ?_⟩
  · rw [quantileLinear, if_neg hne]
  · refine ⟨s.get ⟨0, h0n⟩, hperm.subset (List.get_mem s 0 h0n), ?_, ?_⟩
    · intro w hw
      obtain ⟨i, hi⟩ := List.mem_iff_get.mp (hperm.mem_iff.mpr hw)
      rw [← hi]
      exact hsort.rel_get_of_le (by exact Nat.zero_le _)
    · have hmul : 0 ≤ ((((s.length : ℚ) - 1) * q) - (j : ℚ)) *
          (s.getD (min (j + 1) (s.length - 1)) 0 - s.getD j 0) := by
        apply mul_nonneg
        · linarith
        · rw [hget_lo, hget_hi]
          linarith
      rw [hget_lo]
      nlinarith [hminlo, hmul]

/-- C10: on a non-empty cleaned dataset and any quantile q ∈ [0, 1], the
cap is defined and is ≥ the minimum `repairAmount`, so the record holding
the minimum passes the capping filter and the PlotView is non-empty. -/
theorem capOutliers_plotview_nonempty (D : List Record) (q : ℚ)
    (hne : D ≠ []) (hclean : ∀ r ∈ D, r.repairAmount.isSome)
    (hq0 : 0 ≤ q) (hq1 : q ≤ 1) :
    ∃ c, (capOutliers D q).2 = some c ∧
      (∃ v ∈ D.filterMap Record.repairAmount,
        (∀ w ∈ D.filterMap Record.repairAmount, v ≤ w) ∧ v ≤ c) ∧
      (capOutliers D q).1 ≠ [] := by
  have hvals : D.filterMap Record.repairAmount ≠ [] := by
    obtain ⟨r, hr⟩ := List.exists_mem_of_ne_nil D hne
    obtain ⟨v, hv⟩ := Option.isSome_iff_exists.mp (hclean r hr)
    exact List.ne_nil_of_mem (List.mem_filterMap.mpr ⟨r, hr, hv⟩)
  obtain ⟨c, hc, v, hvmem, hvmin, hvc⟩ := quantileLinear_ge_min _ q hvals hq0 hq1
  obtain ⟨r, hrD, hr⟩ := List.mem_filterMap.mp hvmem
  refine ⟨c, by rw [capOutliers_snd, hc], ⟨v, hvmem, hvmin, hvc⟩, ?_⟩
  apply List.ne_nil_of_mem (a := r)
  rw [capOutliers_fst, hc]
  exact List.mem_filter.mpr ⟨hrD, (leCap_some_iff _ _).mpr ⟨v, hr, hvc⟩⟩

/-- C10 witness: the five-row cleaned example at quantile 0.99. -/
theorem capOutliers_plotview_nonempty_witness :
    ∃ c, (capOutliers exCleaned5 (99/100)).2 = some c ∧
      (∃ v ∈ exCleaned5.filterMap Record.repairAmount,
        (∀ w ∈ exCleaned5.filterMap Record.repairAmount, v ≤ w) ∧ v ≤ c) ∧
      (capOutliers exCleaned5 (99/100)).1 ≠ [] :=
  capOutliers_plotview_nonempty exCleaned5 (99/100) (by simp [exCleaned5]) (by decide)
    (by norm_num) (by norm_num)
